import Mathlib

/-!
Verification development for the tinyland-logging repository.

Two subsystems are embedded:
* the flat-file admin audit store (`src/admin-logger-flat.ts`):
  `readLogs`, `writeLogs`, `logAdminActivity`, `logAdminAction`,
  `getRecentAdminActivities`, `getRecentAdminActivity`, `rotateAdminLogs`;
* the buffered Loki shipper (`src/logger.ts`):
  `flushLogs`, `scheduleFlush`, `log`.

Modelling conventions:
* The persisted file is represented by its parse result `Option Json`
  (`none` models text that `JSON.parse` rejects); `JSON.stringify`
  followed by `JSON.parse` is the identity at this level.
* JavaScript `number` date values are modelled as `Int` millisecond
  timestamps; `new Date(s).getTime()` is abstracted as a parameter
  `jsDate : String → Option Int`, `none` standing for an invalid date
  (`NaN` time value).
* `fs` writes are modelled as atomic: a failed write leaves the previous
  file content in place.
-/

/-- JSON values as produced by `JSON.parse`. Objects are association lists;
objects coming out of the parser have pairwise distinct keys. -/
inductive Json where
  | null
  | bool (b : Bool)
  | num (n : Int)
  | str (s : String)
  | arr (elems : List Json)
  | obj (fields : List (String × Json))

/-- JavaScript truthiness of a parsed JSON value (`NaN` cannot occur in
parsed JSON, and `undefined` is represented by absence, not a value). -/
def jsTruthy : Json → Bool
  | Json.null => false
  | Json.bool b => b
  | Json.num n => n != 0
  | Json.str s => s != ""
  | Json.arr _ => true
  | Json.obj _ => true

/-- `Array.isArray`. -/
def Json.isArr : Json → Bool
  | Json.arr _ => true
  | _ => false

/-- The element list of an array value (only used under an `isArr` guard). -/
def Json.arrElems : Json → List Json
  | Json.arr xs => xs
  | _ => []

/-- Key lookup in an object's field list. -/
def lookupField : List (String × Json) → String → Option Json
  | [], _ => none
  | (k', v) :: rest, k => if k' == k then some v else lookupField rest k

/-- JavaScript property access `value[key]` on a non-null value:
`some v` when the value is an object with that key, `none` standing for
`undefined` (absent key, or primitive receiver). Access on `null` throws
and is handled separately by the caller. -/
def jsField : Json → String → Option Json
  | Json.obj fields, k => lookupField fields k
  | _, _ => none

/-- Errors that can escape `readLogs`: `JSON.parse` throwing on
unparseable text, and the `TypeError` from evaluating `parsed.logs`
when `parsed` is `null`. -/
inductive JsError where
  | syntaxError
  | typeError
deriving DecidableEq, Repr

/-- `readLogs` (src/admin-logger-flat.ts, lines 64–75) applied to the
parse result of the file content: a bare array is returned as-is;
otherwise, if `parsed.logs` is truthy and an array, that field is
returned; otherwise `[]`. `none` (unparseable text) propagates the
`JSON.parse` exception, and a parsed top-level `null` throws a
`TypeError` at the `parsed.logs` access. -/
def readLogsE : Option Json → Except JsError (List Json)
  | none => Except.error JsError.syntaxError
  | some (Json.arr xs) => Except.ok xs
  | some Json.null => Except.error JsError.typeError
  | some parsed =>
      match jsField parsed "logs" with
      | some v => if jsTruthy v && v.isArr then Except.ok v.arrElems else Except.ok []
      | none => Except.ok []

/-- `writeLogs` (src/admin-logger-flat.ts, lines 82–86): the file is
replaced by `JSON.stringify({ logs })`, i.e. the canonical object form. -/
def writeLogsJson (logs : List Json) : Json :=
  Json.obj [("logs", Json.arr logs)]

/-- The retention step shared by `logAdminActivity` and `logAdminAction`:
`logs.push(newLog)` followed by
`if (logs.length > 1000) logs.splice(0, logs.length - 1000)`. -/
def capAppend {α : Type} (logs : List α) (newLog : α) : List α :=
  let logs1 := logs ++ [newLog]
  if logs1.length > 1000 then logs1.drop (logs1.length - 1000) else logs1

/-- `AdminUser` (src/types.ts). -/
structure AdminUser where
  id : String
  email : String
deriving DecidableEq, Repr

/-- `AdminLogOptions` (src/types.ts); `none` models an absent optional
property, and `details` values are JSON objects (field lists). -/
structure AdminLogOptions where
  action : String
  resourceType : Option String
  resourceId : Option String
  details : Option (List (String × Json))

/-- `AdminActivityLog` (src/types.ts); `none` models `null`. -/
structure AdminActivityLog where
  id : String
  admin_user_id : String
  admin_email : String
  action : String
  resource_type : Option String
  resource_id : Option String
  ip_address : String
  user_agent : Option String
  details : Option (List (String × Json))
  created_at : String

/-- `x || null` on a JavaScript `string | null | undefined` value: the
empty string is falsy and collapses to `null`. -/
def jsOrNone : Option String → Option String
  | some s => if s == "" then none else some s
  | none => none

/-- The record built by `logAdminActivity` (src/admin-logger-flat.ts,
lines 105–116); `id` and `created_at` stand for the values produced by
`crypto.randomUUID()` and `new Date().toISOString()`. -/
def mkActivityLog (id : String) (user : AdminUser) (ipAddress : String)
    (userAgent : Option String) (options : AdminLogOptions) (createdAt : String) :
    AdminActivityLog :=
  { id := id
    admin_user_id := user.id
    admin_email := user.email
    action := options.action
    resource_type := jsOrNone options.resourceType
    resource_id := jsOrNone options.resourceId
    ip_address := ipAddress
    user_agent := userAgent
    details := options.details
    created_at := createdAt }

/-- The record built by `logAdminAction` (src/admin-logger-flat.ts,
lines 152–163); `requestUserAgent` is `request.headers.get('user-agent')`. -/
def mkActionLog (id : String) (userId : String) (action : String)
    (targetType : Option String) (targetId : Option String)
    (requestUserAgent : Option String) (metadata : Option (List (String × Json)))
    (createdAt : String) : AdminActivityLog :=
  { id := id
    admin_user_id := userId
    admin_email := ""
    action := action
    resource_type := targetType
    resource_id := targetId
    ip_address := "127.0.0.1"
    user_agent := jsOrNone requestUserAgent
    details := metadata
    created_at := createdAt }

/-- A nullable string field as serialized (`null` or the string). -/
def jsonOfOptStr : Option String → Json
  | some s => Json.str s
  | none => Json.null

/-- A nullable details object as serialized (`null` or the object). -/
def jsonOfOptObj : Option (List (String × Json)) → Json
  | some kvs => Json.obj kvs
  | none => Json.null

/-- Serialization of one record as `JSON.stringify` lays it out
(`null` for absent nullable fields, the `details` object inline). -/
def AdminActivityLog.toJson (r : AdminActivityLog) : Json :=
  Json.obj
    [ ("id", Json.str r.id)
    , ("admin_user_id", Json.str r.admin_user_id)
    , ("admin_email", Json.str r.admin_email)
    , ("action", Json.str r.action)
    , ("resource_type", jsonOfOptStr r.resource_type)
    , ("resource_id", jsonOfOptStr r.resource_id)
    , ("ip_address", Json.str r.ip_address)
    , ("user_agent", jsonOfOptStr r.user_agent)
    , ("details", jsonOfOptObj r.details)
    , ("created_at", Json.str r.created_at) ]

/-- Injected fault scenario for one append call: whether the file read
(`ensureLogsDir`/`fs.readFile`) throws, and whether the file write
(`writeLogs`) throws. -/
structure Fault where
  readFails : Bool
  writeFails : Bool
deriving DecidableEq, Repr

/-- The fault-free scenario. -/
def noFault : Fault := ⟨false, false⟩

/-- Messages emitted on the fallback console sink. -/
inductive ConsoleEvent where
  | logActivityFailed
  | logActionFailed
  | lokiPushFailed
deriving DecidableEq, Repr

/-- `logAdminActivity` (src/admin-logger-flat.ts, lines 96–129) as a
transformer of the persisted file: the whole body is wrapped in
`try/catch`, the catch arm only writes `console.error(...)`, so the
call always returns normally (the result type has no error case).
Returns the file content after the call and the console output. -/
def logAdminActivityRun (file : Option Json) (fault : Fault) (user : AdminUser)
    (ipAddress : String) (userAgent : Option String) (options : AdminLogOptions)
    (id createdAt : String) : Option Json × List ConsoleEvent :=
  if fault.readFails then (file, [ConsoleEvent.logActivityFailed])
  else
    match readLogsE file with
    | Except.error _ => (file, [ConsoleEvent.logActivityFailed])
    | Except.ok logs =>
        let newLog := mkActivityLog id user ipAddress userAgent options createdAt
        if fault.writeFails then (file, [ConsoleEvent.logActivityFailed])
        else (some (writeLogsJson (capAppend logs newLog.toJson)), [])

/-- `logAdminAction` (src/admin-logger-flat.ts, lines 141–176), same
shape as `logAdminActivityRun` with the simplified-parameter record. -/
def logAdminActionRun (file : Option Json) (fault : Fault) (userId : String)
    (action : String) (targetType targetId : Option String)
    (requestUserAgent : Option String) (metadata : Option (List (String × Json)))
    (id createdAt : String) : Option Json × List ConsoleEvent :=
  if fault.readFails then (file, [ConsoleEvent.logActionFailed])
  else
    match readLogsE file with
    | Except.error _ => (file, [ConsoleEvent.logActionFailed])
    | Except.ok logs =>
        let newLog := mkActionLog id userId action targetType targetId requestUserAgent metadata createdAt
        if fault.writeFails then (file, [ConsoleEvent.logActionFailed])
        else (some (writeLogsJson (capAppend logs newLog.toJson)), [])

/-- The sort comparator of the query layer
(`(a, b) => new Date(b.created_at).getTime() - new Date(a.created_at).getTime()`).
When either date is invalid the subtraction is `NaN`, which the
ECMAScript `SortCompare` operation treats as `+0`. -/
def dateCmp (jsDate : String → Option Int) (a b : AdminActivityLog) : Int :=
  match jsDate b.created_at, jsDate a.created_at with
  | some tb, some ta => tb - ta
  | _, _ => 0

/-- `a` may be placed before `b` by the comparator (`compare(a, b) <= 0`). -/
def sortLe (jsDate : String → Option Int) (a b : AdminActivityLog) : Bool :=
  decide (dateCmp jsDate a b ≤ 0)

/-- `logs.sort(comparator)`: `Array.prototype.sort` is required to be
stable, so it is modelled by the stable `List.mergeSort` on `sortLe`. -/
def jsSortDesc (jsDate : String → Option Int) (logs : List AdminActivityLog) :
    List AdminActivityLog :=
  logs.mergeSort (sortLe jsDate)

/-- `getRecentAdminActivities` (src/admin-logger-flat.ts, lines 230–241)
on the record list returned by `readLogs`; `limit` and `offset` are the
non-negative integers the pagination API is called with, and
`slice(offset, offset + limit)` is `drop offset` then `take limit`. -/
def getRecentAdminActivities (jsDate : String → Option Int)
    (logs : List AdminActivityLog) (limit offset : Nat) : List AdminActivityLog :=
  ((jsSortDesc jsDate logs).drop offset).take limit

/-- Milliseconds per calendar day; `cutoffDate.setDate(cutoffDate.getDate() - days)`
is modelled as subtracting `days` whole days from the current instant. -/
def msPerDay : Int := 86400000

/-- The filter predicate `new Date(log.created_at) > cutoffDate`: an
invalid date has time value `NaN` and every comparison against `NaN`
is `false`. -/
def keepAfterCutoff (jsDate : String → Option Int) (cutoff : Int)
    (r : AdminActivityLog) : Bool :=
  match jsDate r.created_at with
  | some t => decide (cutoff < t)
  | none => false

/-- `getRecentAdminActivity` (src/admin-logger-flat.ts, lines 293–306):
filter to the last `days` days, then sort descending. -/
def getRecentAdminActivity (jsDate : String → Option Int) (now : Int)
    (days : Nat) (logs : List AdminActivityLog) : List AdminActivityLog :=
  let cutoff := now - days * msPerDay
  jsSortDesc jsDate (logs.filter (keepAfterCutoff jsDate cutoff))

/-- `rotateAdminLogs` (src/admin-logger-flat.ts, lines 314–327): keep the
records newer than the cutoff, return the written list together with
`deletedCount = logs.length - filteredLogs.length`. -/
def rotateAdminLogs (jsDate : String → Option Int) (now : Int) (days : Nat)
    (logs : List AdminActivityLog) : List AdminActivityLog × Nat :=
  let cutoff := now - days * msPerDay
  let filteredLogs := logs.filter (keepAfterCutoff jsDate cutoff)
  (filteredLogs, logs.length - filteredLogs.length)

/-- `LokiLogEntry` (src/types.ts). -/
structure LokiLogEntry where
  level : String
  message : String
  timestamp : String
  labels : List (String × String)
deriving DecidableEq, Repr

/-- Outcome of the one `fetch` call of a flush: the promise resolves
with a success response, resolves with a non-success response, or
rejects (network error). -/
inductive TransportOutcome where
  | success
  | httpError
  | networkError
deriving DecidableEq, Repr

/-- The module-level mutable state of src/logger.ts: the `logBuffer`
array and the `flushTimer` handle (`some delayMs` when a timeout is
pending, `none` when the handle is `null`). -/
structure LoggerState where
  logBuffer : List LokiLogEntry
  flushTimer : Option Nat
deriving DecidableEq, Repr

/-- Result of one `flushLogs` call: the state afterwards, the bodies
POSTed to the push endpoint, and the fallback console output. -/
structure FlushEffects where
  state : LoggerState
  requests : List Json
  consoleErrors : List ConsoleEvent

/-- One assignment step of a JavaScript object literal: an existing key
keeps its position and takes the new value, a new key is appended. -/
def jsObjAssign : List (String × Json) → String → Json → List (String × Json)
  | [], k, v => [(k, v)]
  | (k', v') :: rest, k, v =>
      if k' == k then (k', v) :: rest else (k', v') :: jsObjAssign rest k v

/-- The field list of a JavaScript object literal built left to right
(later duplicate keys override earlier ones in place). -/
def jsObjLit (entries : List (String × Json)) : List (String × Json) :=
  entries.foldl (fun acc kv => jsObjAssign acc kv.1 kv.2) []

/-- The per-line payload `JSON.stringify({ level: log.level, msg: log.message,
...log.labels })`, modelled at the JSON-value level. -/
def payloadJson (e : LokiLogEntry) : Json :=
  Json.obj (jsObjLit
    (("level", Json.str e.level) :: ("msg", Json.str e.message)
      :: e.labels.map (fun kv => (kv.1, Json.str kv.2))))

/-- `(new Date(log.timestamp).getTime() * 1000000).toString()`; an
invalid timestamp gives `NaN * 1000000 = NaN`, printed as `"NaN"`. -/
def nanoTimestamp (jsDate : String → Option Int) (ts : String) : String :=
  match jsDate ts with
  | some ms => toString (ms * 1000000)
  | none => "NaN"

/-- The static-plus-environment stream labels of the single stream. -/
def streamLabels (env : String) : Json :=
  Json.obj
    [ ("job", Json.str "sveltekit")
    , ("container", Json.str "stonewall-sveltekit")
    , ("environment", Json.str env)
    , ("compose_service", Json.str "sveltekit") ]

/-- One `values` entry for one buffered line. -/
def lokiValue (jsDate : String → Option Int) (e : LokiLogEntry) : Json :=
  Json.arr [Json.str (nanoTimestamp jsDate e.timestamp), payloadJson e]

/-- The request body `JSON.stringify({ streams })` of one flush:
a single stream carrying one value per buffered line, in buffer order. -/
def lokiBody (jsDate : String → Option Int) (env : String)
    (logsToSend : List LokiLogEntry) : Json :=
  Json.obj
    [ ("streams", Json.arr
        [ Json.obj
            [ ("stream", streamLabels env)
            , ("values", Json.arr (logsToSend.map (lokiValue jsDate))) ] ]) ]

/-- `flushLogs` (src/logger.ts, lines 53–90): an empty buffer returns
immediately; otherwise the buffer is copied out and reset to `[]`
before the `fetch`, whose body is built from the copied batch. Only a
rejected `fetch` is caught and reported (`console.error`); the response
status is never inspected, and the batch is never re-enqueued. -/
def flushLogs (jsDate : String → Option Int) (env : String) (s : LoggerState)
    (outcome : TransportOutcome) : FlushEffects :=
  if s.logBuffer.isEmpty then ⟨s, [], []⟩
  else
    let logsToSend := s.logBuffer
    let s1 : LoggerState := { s with logBuffer := [] }
    let body := lokiBody jsDate env logsToSend
    match outcome with
    | TransportOutcome.networkError => ⟨s1, [body], [ConsoleEvent.lokiPushFailed]⟩
    | _ => ⟨s1, [body], []⟩

/-- The logger state extended with the number of `setTimeout` callbacks
currently scheduled and not yet fired, so that timer proliferation is
expressible at all. -/
structure TimerSystem where
  st : LoggerState
  armedTimers : Nat
deriving DecidableEq, Repr

/-- `scheduleFlush` (src/logger.ts, lines 95–101): a pending handle makes
the call a no-op; otherwise `setTimeout(..., 1000)` arms one new timer
and its handle is stored. -/
def scheduleFlush (s : TimerSystem) : TimerSystem :=
  match s.st.flushTimer with
  | some _ => s
  | none =>
      { st := { s.st with flushTimer := some 1000 }
        armedTimers := s.armedTimers + 1 }

/-- `log` (src/logger.ts, lines 110–126), restricted to the shipper
state: when Loki is enabled the entry is pushed onto the buffer and a
flush is scheduled; otherwise (console-only) the shipper state is
untouched. -/
def logCallStep (s : TimerSystem) (e : LokiLogEntry) (lokiEnabled : Bool) :
    TimerSystem :=
  if lokiEnabled then
    scheduleFlush { s with st := { s.st with logBuffer := s.st.logBuffer ++ [e] } }
  else s

/-- The `setTimeout` callback (src/logger.ts, lines 97–100) firing:
one armed timer is consumed, `flushTimer = null` is assigned first, then
`flushLogs()` runs. When no timer is armed nothing can fire. -/
def timerFireStep (jsDate : String → Option Int) (env : String)
    (s : TimerSystem) (outcome : TransportOutcome) : TimerSystem :=
  if s.armedTimers = 0 then s
  else
    let s1 : TimerSystem :=
      { st := { s.st with flushTimer := none }, armedTimers := s.armedTimers - 1 }
    { s1 with st := (flushLogs jsDate env s1.st outcome).state }

/-- The events the shipper state reacts to. -/
inductive LoggerEvent where
  | logCall (e : LokiLogEntry) (lokiEnabled : Bool)
  | timerFire (outcome : TransportOutcome)
  | explicitFlush (outcome : TransportOutcome)

/-- One event step of the shipper. -/
def stepEvent (jsDate : String → Option Int) (env : String)
    (s : TimerSystem) : LoggerEvent → TimerSystem
  | LoggerEvent.logCall e enabled => logCallStep s e enabled
  | LoggerEvent.timerFire outcome => timerFireStep jsDate env s outcome
  | LoggerEvent.explicitFlush outcome =>
      { s with st := (flushLogs jsDate env s.st outcome).state }

/-- The initial module state: empty buffer, no handle, no armed timer. -/
def initTimerSystem : TimerSystem := ⟨⟨[], none⟩, 0⟩

/-- Run a sequence of events from the initial state. -/
def runEvents (jsDate : String → Option Int) (env : String)
    (events : List LoggerEvent) : TimerSystem :=
  events.foldl (stepEvent jsDate env) initTimerSystem

/-! ## Helper lemmas -/

/-- `jsonOfOptStr` is injective (`null` is not a string value). -/
theorem jsonOfOptStr_inj {a b : Option String} (h : jsonOfOptStr a = jsonOfOptStr b) :
    a = b := by
  cases a <;> cases b <;> simp_all [jsonOfOptStr]

/-- `jsonOfOptObj` is injective (`null` is not an object value). -/
theorem jsonOfOptObj_inj {a b : Option (List (String × Json))}
    (h : jsonOfOptObj a = jsonOfOptObj b) : a = b := by
  cases a <;> cases b <;> simp_all [jsonOfOptObj]

/-! ## Claims -/

/-- Claim C1 (bounded retention): on the fault-free path, both append
operations write back exactly the capped list `capAppend logs newRec`,
and for every starting list the capped list has length
`min (length + 1) 1000` — in particular at most 1000 — and is a suffix
of the pushed list, i.e. the most recently appended records survive in
their original relative order, the oldest-by-position being dropped. -/
theorem logAdmin_bounded_retention (file : Option Json) (logs : List Json)
    (user : AdminUser) (ip : String) (ua : Option String) (opts : AdminLogOptions)
    (userId action : String) (tt ti : Option String) (rua : Option String)
    (md : Option (List (String × Json))) (id createdAt : String)
    (hread : readLogsE file = Except.ok logs) :
    logAdminActivityRun file noFault user ip ua opts id createdAt
        = (some (writeLogsJson (capAppend logs
            (mkActivityLog id user ip ua opts createdAt).toJson)), [])
    ∧ logAdminActionRun file noFault userId action tt ti rua md id createdAt
        = (some (writeLogsJson (capAppend logs
            (mkActionLog id userId action tt ti rua md createdAt).toJson)), [])
    ∧ (∀ r : Json, (capAppend logs r).length = min (logs.length + 1) 1000)
    ∧ (∀ r : Json, (capAppend logs r).IsSuffix (logs ++ [r])) := by
  refine ⟨?_, ?_, ?_, ?_⟩
  · simp [logAdminActivityRun, noFault, hread]
  · simp [logAdminActionRun, noFault, hread]
  · intro r
    simp only [capAppend]
    split
    next h =>
      simp only [List.length_drop, List.length_append, List.length_singleton] at h ⊢
      omega
    next h =>
      simp only [List.length_append, List.length_singleton] at h ⊢
      omega
  · intro r
    simp only [capAppend]
    split
    · exact List.drop_suffix _ _
    · exact List.suffix_refl _

/-- Witness for C1: a concrete fault-free append from the empty store. -/
theorem logAdmin_bounded_retention_witness :
    readLogsE (some (writeLogsJson [])) = Except.ok []
    ∧ (capAppend ([] : List Json) Json.null).length = min 1 1000 := by
  refine ⟨rfl, ?_⟩
  have h := logAdmin_bounded_retention (some (writeLogsJson [])) []
    ⟨"u", "u@x"⟩ "127.0.0.1" none ⟨"a", none, none, none⟩
    "u" "a" none none none none "id" "t" rfl
  simpa using h.2.2.1 Json.null

/-- Claim C2, counterexample: `readLogs` does raise on two file contents.
Unparseable text makes `JSON.parse` throw, and a file containing the
JSON text `null` makes the `parsed.logs` access throw a `TypeError`;
in both cases the error propagates to the caller of `readLogs` instead
of an empty list being returned. -/
theorem readLogs_raises_counterexample :
    readLogsE none = Except.error JsError.syntaxError
    ∧ readLogsE (some Json.null) = Except.error JsError.typeError := by
  exact ⟨rfl, rfl⟩

/-- Claim C2 as amended: `readLogs` returns the parsed value itself when
it is a JSON array, the value of its `logs` field when that field is an
array, and an empty list for every other parseable content other than
`null` — but unparseable text raises the `JSON.parse` error and the JSON
text `null` raises a `TypeError`, both propagating to `readLogs`'s
caller (they are only caught at the append boundary). -/
theorem readLogs_normalization (j : Json) (xs : List Json)
    (fields : List (String × Json)) :
    readLogsE (some (Json.arr xs)) = Except.ok xs
    ∧ (lookupField fields "logs" = some (Json.arr xs) →
        readLogsE (some (Json.obj fields)) = Except.ok xs)
    ∧ (j ≠ Json.null → j.isArr = false →
        (∀ ys, jsField j "logs" ≠ some (Json.arr ys)) →
        readLogsE (some j) = Except.ok [])
    ∧ readLogsE none = Except.error JsError.syntaxError
    ∧ readLogsE (some Json.null) = Except.error JsError.typeError := by
  refine ⟨rfl, ?_, ?_, rfl, rfl⟩
  · intro h
    simp [readLogsE, jsField, h, jsTruthy, Json.isArr, Json.arrElems]
  · intro hnull harr hfield
    cases j with
    | null => exact absurd rfl hnull
    | arr ys => simp [Json.isArr] at harr
    | bool b => simp [readLogsE, jsField]
    | num n => simp [readLogsE, jsField]
    | str s => simp [readLogsE, jsField]
    | obj fs =>
        simp only [readLogsE]
        cases hv : jsField (Json.obj fs) "logs" with
        | none => simp
        | some v =>
            cases v with
            | arr ys => exact absurd hv (hfield ys)
            | null => simp [jsTruthy]
            | bool b => simp [jsTruthy, Json.isArr]
            | num n => simp [jsTruthy, Json.isArr]
            | str s => simp [jsTruthy, Json.isArr]
            | obj gs => simp [jsTruthy, Json.isArr]

/-- Witness for the amended C2: an object store with a populated `logs`
field normalizes to that list, and a parseable non-array non-null
content (a number) normalizes to no records. -/
theorem readLogs_normalization_witness :
    readLogsE (some (Json.obj [("logs", Json.arr [Json.num 1])]))
        = Except.ok [Json.num 1]
    ∧ readLogsE (some (Json.num 5)) = Except.ok [] := by
  have h := readLogs_normalization (Json.num 5) [Json.num 1]
    [("logs", Json.arr [Json.num 1])]
  exact ⟨h.2.1 rfl, h.2.2.1 (fun hn => Json.noConfusion hn) rfl
    (fun ys hy => Option.noConfusion hy)⟩

/-- Claim C3 (append failure isolation): whenever a read fault, a write
fault, or a read-side parse failure occurs inside an append, both append
operations leave the persisted file exactly as it was and emit exactly
the one fallback console message; the functions' total result type
reflects that the surrounding `try/catch` never lets the error reach
the caller. -/
theorem logAdmin_failure_isolation (file : Option Json) (fault : Fault)
    (user : AdminUser) (ip : String) (ua : Option String) (opts : AdminLogOptions)
    (userId action : String) (tt ti : Option String) (rua : Option String)
    (md : Option (List (String × Json))) (id createdAt : String)
    (hfail : fault.readFails = true ∨ fault.writeFails = true
      ∨ ∃ e, readLogsE file = Except.error e) :
    logAdminActivityRun file fault user ip ua opts id createdAt
        = (file, [ConsoleEvent.logActivityFailed])
    ∧ logAdminActionRun file fault userId action tt ti rua md id createdAt
        = (file, [ConsoleEvent.logActionFailed]) := by
  rcases hfail with h | h | ⟨e, he⟩
  · constructor <;> simp [logAdminActivityRun, logAdminActionRun, h]
  · constructor <;>
      · by_cases hr : fault.readFails = true
        · simp [logAdminActivityRun, logAdminActionRun, hr]
        · cases hre : readLogsE file with
          | error e => simp [logAdminActivityRun, logAdminActionRun, hr, hre]
          | ok logs => simp [logAdminActivityRun, logAdminActionRun, hr, hre, h]
  · constructor <;>
      · by_cases hr : fault.readFails = true
        · simp [logAdminActivityRun, logAdminActionRun, hr]
        · simp [logAdminActivityRun, logAdminActionRun, hr, he]

/-- Witness for C3: a concrete failing read leaves a concrete store
untouched and reports on the console. -/
theorem logAdmin_failure_isolation_witness :
    ((⟨true, false⟩ : Fault).readFails = true
      ∨ (⟨true, false⟩ : Fault).writeFails = true
      ∨ ∃ e, readLogsE (some (writeLogsJson [])) = Except.error e)
    ∧ logAdminActivityRun (some (writeLogsJson [])) ⟨true, false⟩
        ⟨"u", "u@x"⟩ "127.0.0.1" none ⟨"a", none, none, none⟩ "id" "t"
        = (some (writeLogsJson []), [ConsoleEvent.logActivityFailed]) := by
  refine ⟨Or.inl rfl, ?_⟩
  exact (logAdmin_failure_isolation (some (writeLogsJson [])) ⟨true, false⟩
    ⟨"u", "u@x"⟩ "127.0.0.1" none ⟨"a", none, none, none⟩
    "u" "a" none none none none "id" "t" (Or.inl rfl)).1

/-- Claim C4 (round-trip): writing any well-formed record list `X`
produces the canonical `{ "logs": [...] }` object, reading it back
yields exactly the serialized records, and record serialization is
injective, so the list read back is field-for-field equal to `X`
(this includes `X = []`, since an empty `logs` array is still truthy). -/
theorem write_read_round_trip (X : List AdminActivityLog)
    (r r' : AdminActivityLog) :
    readLogsE (some (writeLogsJson (X.map AdminActivityLog.toJson)))
        = Except.ok (X.map AdminActivityLog.toJson)
    ∧ writeLogsJson (X.map AdminActivityLog.toJson)
        = Json.obj [("logs", Json.arr (X.map AdminActivityLog.toJson))]
    ∧ (AdminActivityLog.toJson r = AdminActivityLog.toJson r' → r = r') := by
  refine ⟨?_, rfl, ?_⟩
  · simp [readLogsE, writeLogsJson, jsField, lookupField, jsTruthy,
      Json.isArr, Json.arrElems]
  · intro h
    cases r with
    | mk i a e ac rt ri ip ua d ca =>
    cases r' with
    | mk i' a' e' ac' rt' ri' ip' ua' d' ca' =>
    simp only [AdminActivityLog.toJson, Json.obj.injEq, List.cons.injEq,
      Prod.mk.injEq, Json.str.injEq, true_and, and_true] at h
    obtain ⟨h1, h2, h3, h4, h5, h6, h7, h8, h9, h10⟩ := h
    simp only [AdminActivityLog.mk.injEq]
    exact ⟨h1, h2, h3, h4, jsonOfOptStr_inj h5, jsonOfOptStr_inj h6, h7,
      jsonOfOptStr_inj h8, jsonOfOptObj_inj h9, h10⟩

/-- Witness for C4: a concrete one-record round trip, and injectivity
applied at a concrete record. -/
theorem write_read_round_trip_witness :
    readLogsE (some (writeLogsJson
        ([(⟨"i", "u", "u@x", "a", none, none, "ip", none, none, "t"⟩ :
            AdminActivityLog)].map AdminActivityLog.toJson)))
      = Except.ok
        ([(⟨"i", "u", "u@x", "a", none, none, "ip", none, none, "t"⟩ :
            AdminActivityLog)].map AdminActivityLog.toJson)
    ∧ (⟨"i", "u", "u@x", "a", none, none, "ip", none, none, "t"⟩ :
        AdminActivityLog)
      = ⟨"i", "u", "u@x", "a", none, none, "ip", none, none, "t"⟩ := by
  have h := write_read_round_trip
    [⟨"i", "u", "u@x", "a", none, none, "ip", none, none, "t"⟩]
    ⟨"i", "u", "u@x", "a", none, none, "ip", none, none, "t"⟩
    ⟨"i", "u", "u@x", "a", none, none, "ip", none, none, "t"⟩
  exact ⟨h.1, h.2.2 rfl⟩

/-- Millisecond key with invalid dates collapsed to `0`; on lists whose
members all carry valid dates it induces the same comparisons as
`sortLe` while being a total preorder on the whole type. -/
def timeD (jsDate : String → Option Int) (r : AdminActivityLog) : Int :=
  (jsDate r.created_at).getD 0

/-- Totalized version of the descending comparator. -/
def sortLeTotal (jsDate : String → Option Int) (a b : AdminActivityLog) : Bool :=
  decide (timeD jsDate b ≤ timeD jsDate a)

/-- `sortLeTotal` is transitive. -/
theorem sortLeTotal_trans (jsDate : String → Option Int) :
    ∀ a b c, sortLeTotal jsDate a b → sortLeTotal jsDate b c →
      sortLeTotal jsDate a c := by
  intro a b c hab hbc
  simp only [sortLeTotal, decide_eq_true_eq] at hab hbc ⊢
  omega

/-- `sortLeTotal` is total. -/
theorem sortLeTotal_total (jsDate : String → Option Int) :
    ∀ a b, sortLeTotal jsDate a b || sortLeTotal jsDate b a := by
  intro a b
  simp only [sortLeTotal, Bool.or_eq_true, decide_eq_true_eq]
  omega

/-- On a list whose records all have parseable dates, the source
comparator and its totalization sort identically. -/
theorem jsSortDesc_eq_total (jsDate : String → Option Int)
    (logs : List AdminActivityLog)
    (hv : ∀ r ∈ logs, (jsDate r.created_at).isSome = true) :
    jsSortDesc jsDate logs = logs.mergeSort (sortLeTotal jsDate) := by
  have hl : ∀ a ∈ logs, ∀ b ∈ logs,
      sortLe jsDate a b = sortLeTotal jsDate (id a) (id b) := by
    intro a ha b hb
    obtain ⟨ta, hta⟩ := Option.isSome_iff_exists.mp (hv a ha)
    obtain ⟨tb, htb⟩ := Option.isSome_iff_exists.mp (hv b hb)
    simp only [sortLe, sortLeTotal, dateCmp, timeD, hta, htb, id_eq,
      Option.getD_some]
    exact decide_eq_decide.mpr (by omega)
  have h := List.map_mergeSort (f := id) hl
  simpa [jsSortDesc, List.map_id] using h

/-- A filter whose survivors are pairwise `sortLeTotal`-related commutes
with the stable sort: the survivors keep their original relative order. -/
theorem filter_mergeSort_eq (jsDate : String → Option Int)
    (logs : List AdminActivityLog) (p : AdminActivityLog → Bool)
    (hp : ∀ a b, p a = true → p b = true → sortLeTotal jsDate a b = true) :
    (logs.mergeSort (sortLeTotal jsDate)).filter p = logs.filter p := by
  have hc : (logs.filter p).Pairwise (fun a b => sortLeTotal jsDate a b = true) := by
    apply List.pairwise_of_forall_mem_list
    intro a ha b hb
    exact hp a b (List.of_mem_filter ha) (List.of_mem_filter hb)
  have hsub : List.Sublist (logs.filter p) (logs.mergeSort (sortLeTotal jsDate)) :=
    List.sublist_mergeSort (sortLeTotal_trans jsDate) (sortLeTotal_total jsDate)
      hc (List.filter_sublist logs)
  have hself : (logs.filter p).filter p = logs.filter p :=
    List.filter_eq_self.mpr (fun a ha => List.of_mem_filter ha)
  have hsub2 : List.Sublist (logs.filter p)
      ((logs.mergeSort (sortLeTotal jsDate)).filter p) := by
    have h2 := List.Sublist.filter p hsub
    rwa [hself] at h2
  have hlen : ((logs.mergeSort (sortLeTotal jsDate)).filter p).length
      = (logs.filter p).length :=
    ((List.mergeSort_perm logs (sortLeTotal jsDate)).filter p).length_eq
  exact (hsub2.eq_of_length hlen.symm).symm

/-- Claim C5 (recent query correctness): `getRecentAdminActivities` is
the stable descending sort followed by `slice(offset, offset + limit)`;
on any store whose records carry parseable timestamps the sorted list is
a permutation of the stored one, consecutive sorted records have
non-increasing `created_at` times, and all records sharing one timestamp
appear in their original stored (append) order — the stable tie-break. -/
theorem getRecent_sort_pagination (jsDate : String → Option Int)
    (logs : List AdminActivityLog) (limit offset : Nat)
    (hv : ∀ r ∈ logs, (jsDate r.created_at).isSome = true) :
    getRecentAdminActivities jsDate logs limit offset
        = ((jsSortDesc jsDate logs).drop offset).take limit
    ∧ (jsSortDesc jsDate logs).Perm logs
    ∧ (jsSortDesc jsDate logs).Pairwise (fun a b => ∀ ta tb,
        jsDate a.created_at = some ta → jsDate b.created_at = some tb → tb ≤ ta)
    ∧ ∀ t : Int,
        (jsSortDesc jsDate logs).filter
            (fun r => decide (jsDate r.created_at = some t))
          = logs.filter (fun r => decide (jsDate r.created_at = some t)) := by
  refine ⟨rfl, ?_, ?_, ?_⟩
  · simp only [jsSortDesc]
    exact List.mergeSort_perm logs (sortLe jsDate)
  · rw [jsSortDesc_eq_total jsDate logs hv]
    have hs := List.sorted_mergeSort (sortLeTotal_trans jsDate)
      (sortLeTotal_total jsDate) logs
    refine hs.imp ?_
    intro a b h ta tb hta htb
    simp only [sortLeTotal, timeD, hta, htb, Option.getD_some,
      decide_eq_true_eq] at h
    exact h
  · intro t
    rw [jsSortDesc_eq_total jsDate logs hv]
    apply filter_mergeSort_eq
    intro a b ha hb
    have ha' := of_decide_eq_true ha
    have hb' := of_decide_eq_true hb
    simp [sortLeTotal, timeD, ha', hb']

/-- Witness for C5: two records with one shared (valid) timestamp. -/
theorem getRecent_sort_pagination_witness :
    (∀ r ∈ [(⟨"1", "u", "u@x", "a", none, none, "ip", none, none, "t"⟩ :
              AdminActivityLog),
            ⟨"2", "u", "u@x", "b", none, none, "ip", none, none, "t"⟩],
        (((fun _ => some 0) : String → Option Int) r.created_at).isSome = true)
    ∧ (jsSortDesc (fun _ => some 0)
        [⟨"1", "u", "u@x", "a", none, none, "ip", none, none, "t"⟩,
         ⟨"2", "u", "u@x", "b", none, none, "ip", none, none, "t"⟩]).Perm
        [⟨"1", "u", "u@x", "a", none, none, "ip", none, none, "t"⟩,
         ⟨"2", "u", "u@x", "b", none, none, "ip", none, none, "t"⟩] := by
  refine ⟨fun r _ => rfl, ?_⟩
  exact (getRecent_sort_pagination (fun _ => some 0)
    [⟨"1", "u", "u@x", "a", none, none, "ip", none, none, "t"⟩,
     ⟨"2", "u", "u@x", "b", none, none, "ip", none, none, "t"⟩]
    3 0 (fun r _ => rfl)).2.1

/-- Dropping a filter's survivors from a list's length counts exactly
the elements the filter rejected. -/
theorem length_sub_filter {α : Type} (p : α → Bool) (l : List α) :
    l.length - (l.filter p).length = l.countP (fun a => ! p a) := by
  induction l with
  | nil => rfl
  | cons x xs ih =>
    have hle := List.length_filter_le p xs
    cases h : p x <;> simp [List.filter_cons, List.countP_cons, h] <;> omega

/-- Claim C6 (rotation correctness): the list written back by
`rotateAdminLogs` is a sublist of the stored one (relative order
preserved) holding exactly the records whose `created_at` parses and is
newer than `now - days`, and the returned count is the old length minus
the new length, i.e. the number of records removed. -/
theorem rotate_correctness (jsDate : String → Option Int) (now : Int)
    (days : Nat) (logs : List AdminActivityLog) :
    List.Sublist (rotateAdminLogs jsDate now days logs).1 logs
    ∧ (∀ r, r ∈ (rotateAdminLogs jsDate now days logs).1 ↔
        r ∈ logs ∧ keepAfterCutoff jsDate (now - days * msPerDay) r = true)
    ∧ (rotateAdminLogs jsDate now days logs).2
        = logs.length - (rotateAdminLogs jsDate now days logs).1.length
    ∧ (rotateAdminLogs jsDate now days logs).2
        = logs.countP
            (fun r => ! keepAfterCutoff jsDate (now - days * msPerDay) r) := by
  refine ⟨List.filter_sublist logs, ?_, rfl, ?_⟩
  · intro r
    simp only [rotateAdminLogs, List.mem_filter]
  · simp only [rotateAdminLogs]
    exact length_sub_filter _ logs

/-- Claim C10 (invalid dates are purged): a record whose `created_at`
does not parse fails the `new Date(...) > cutoff` comparison (`NaN`
compares false), so it is never kept by `rotateAdminLogs` and never
returned by `getRecentAdminActivity`, for every `days` argument. -/
theorem invalid_date_record (jsDate : String → Option Int) (now : Int)
    (days : Nat) (logs : List AdminActivityLog) (r : AdminActivityLog)
    (hr : jsDate r.created_at = none) :
    r ∉ (rotateAdminLogs jsDate now days logs).1
    ∧ r ∉ getRecentAdminActivity jsDate now days logs := by
  have hkeep : keepAfterCutoff jsDate (now - days * msPerDay) r = false := by
    simp [keepAfterCutoff, hr]
  refine ⟨fun hmem => ?_, fun hmem => ?_⟩
  · simp only [rotateAdminLogs] at hmem
    have h2 := (List.mem_filter.mp hmem).2
    rw [hkeep] at h2
    exact Bool.noConfusion h2
  · simp only [getRecentAdminActivity, jsSortDesc] at hmem
    have h1 := List.mem_mergeSort.mp hmem
    have h2 := (List.mem_filter.mp h1).2
    rw [hkeep] at h2
    exact Bool.noConfusion h2

/-- Witness for C10: a store holding one record with an unparseable
date; rotation drops it for the concrete `days = 7`. -/
theorem invalid_date_record_witness :
    (((fun _ => none) : String → Option Int)
        (⟨"1", "u", "u@x", "a", none, none, "ip", none, none, "bad"⟩ :
          AdminActivityLog).created_at = none)
    ∧ (⟨"1", "u", "u@x", "a", none, none, "ip", none, none, "bad"⟩ :
        AdminActivityLog) ∉
      (rotateAdminLogs (fun _ => none) 0 7
        [⟨"1", "u", "u@x", "a", none, none, "ip", none, none, "bad"⟩]).1 := by
  refine ⟨rfl, ?_⟩
  exact (invalid_date_record (fun _ => none) 0 7
    [⟨"1", "u", "u@x", "a", none, none, "ip", none, none, "bad"⟩]
    ⟨"1", "u", "u@x", "a", none, none, "ip", none, none, "bad"⟩ rfl).1

/-- Claim C7, counterexample: a flush of a one-line buffer whose `fetch`
resolves with a non-success response reports nothing to the console —
the response status is never inspected — while the batch is still
dropped from the buffer. -/
theorem flush_http_error_silent :
    (flushLogs (fun _ => some 0) "production"
        ⟨[⟨"INFO", "m", "t", []⟩], none⟩ TransportOutcome.httpError).consoleErrors
      = []
    ∧ (flushLogs (fun _ => some 0) "production"
        ⟨[⟨"INFO", "m", "t", []⟩], none⟩
          TransportOutcome.httpError).state.logBuffer = [] := by
  exact ⟨rfl, rfl⟩

/-- Claim C7 as amended: an empty buffer makes `flushLogs` a complete
no-op (no network call, no state change); a non-empty buffer is swapped
to empty before delivery is attempted — regardless of the transport
outcome, so a failed batch is never re-enqueued — exactly one request
carrying the old buffer is attempted, and only a rejected `fetch`
(network error) produces the fallback console report; a non-success
response is silently ignored. -/
theorem flush_semantics (jsDate : String → Option Int) (env : String)
    (s : LoggerState) (outcome : TransportOutcome) :
    (s.logBuffer = [] → flushLogs jsDate env s outcome = ⟨s, [], []⟩)
    ∧ (s.logBuffer ≠ [] →
        (flushLogs jsDate env s outcome).state.logBuffer = []
        ∧ (flushLogs jsDate env s outcome).state.flushTimer = s.flushTimer
        ∧ (flushLogs jsDate env s outcome).requests
            = [lokiBody jsDate env s.logBuffer]
        ∧ (flushLogs jsDate env s outcome).consoleErrors
            = (if outcome = TransportOutcome.networkError
                then [ConsoleEvent.lokiPushFailed] else [])) := by
  constructor
  · intro h
    simp [flushLogs, h]
  · intro h
    have hne : s.logBuffer.isEmpty = false := by
      simpa [List.isEmpty_iff] using h
    cases outcome <;> simp [flushLogs, hne]

/-- Witness for the amended C7: a one-line buffer flushed into a network
error is emptied (and, per the theorem's other conjuncts, reported). -/
theorem flush_semantics_witness :
    (([⟨"INFO", "m", "t", []⟩] : List LokiLogEntry) ≠ [])
    ∧ (flushLogs (fun _ => some 0) "production"
        ⟨[⟨"INFO", "m", "t", []⟩], some 1000⟩
          TransportOutcome.networkError).state.logBuffer = [] := by
  have h := flush_semantics (fun _ => some 0) "production"
    ⟨[⟨"INFO", "m", "t", []⟩], some 1000⟩ TransportOutcome.networkError
  exact ⟨by simp, (h.2 (by simp)).1⟩

/-- `flushLogs` never touches the timer handle. -/
theorem flushLogs_flushTimer (jsDate : String → Option Int) (env : String)
    (s : LoggerState) (outcome : TransportOutcome) :
    (flushLogs jsDate env s outcome).state.flushTimer = s.flushTimer := by
  by_cases h : s.logBuffer.isEmpty <;> cases outcome <;> simp [flushLogs, h]

/-- One event step preserves the timer invariant: the number of armed
`setTimeout` callbacks is 1 exactly when the handle is non-null. -/
theorem stepEvent_preserves_invariant (jsDate : String → Option Int)
    (env : String) (s : TimerSystem) (ev : LoggerEvent)
    (h : s.armedTimers = if s.st.flushTimer.isSome then 1 else 0) :
    (stepEvent jsDate env s ev).armedTimers
      = if (stepEvent jsDate env s ev).st.flushTimer.isSome then 1 else 0 := by
  cases ev with
  | logCall e enabled =>
      cases enabled with
      | false => simpa [stepEvent, logCallStep] using h
      | true =>
          simp only [stepEvent, logCallStep, if_pos]
          cases hf : s.st.flushTimer with
          | some d => simpa [scheduleFlush, hf] using h
          | none => simp [scheduleFlush, hf, hf ▸ h]
  | timerFire outcome =>
      simp only [stepEvent, timerFireStep]
      by_cases hz : s.armedTimers = 0
      · simpa [hz] using h
      · simp only [hz, if_neg, if_false]
        rw [flushLogs_flushTimer]
        cases hf : s.st.flushTimer with
        | some d => simp [hf] at h; simp [h]
        | none => simp [hf] at h; exact absurd h hz
  | explicitFlush outcome =>
      simp only [stepEvent, flushLogs_flushTimer]
      exact h

/-- The timer invariant holds along any event fold from a good state. -/
theorem foldl_timer_invariant (jsDate : String → Option Int) (env : String) :
    ∀ (events : List LoggerEvent) (s : TimerSystem),
    s.armedTimers = (if s.st.flushTimer.isSome then 1 else 0) →
    (events.foldl (stepEvent jsDate env) s).armedTimers
      = if (events.foldl (stepEvent jsDate env) s).st.flushTimer.isSome
          then 1 else 0
  | [], _, h => h
  | ev :: evs, s, h =>
      foldl_timer_invariant jsDate env evs _
        (stepEvent_preserves_invariant jsDate env s ev h)

/-- The timer invariant holds in every reachable state. -/
theorem runEvents_invariant (jsDate : String → Option Int) (env : String)
    (events : List LoggerEvent) :
    (runEvents jsDate env events).armedTimers
      = if (runEvents jsDate env events).st.flushTimer.isSome then 1 else 0 :=
  foldl_timer_invariant jsDate env events initTimerSystem rfl

/-- In a state satisfying the invariant, a timer firing always leaves
the handle cleared (when no timer is armed the handle was already null). -/
theorem timerFire_clears_handle (jsDate : String → Option Int) (env : String)
    (s : TimerSystem)
    (h : s.armedTimers = if s.st.flushTimer.isSome then 1 else 0)
    (outcome : TransportOutcome) :
    (stepEvent jsDate env s (LoggerEvent.timerFire outcome)).st.flushTimer
      = none := by
  simp only [stepEvent, timerFireStep]
  by_cases hz : s.armedTimers = 0
  · simp only [hz, if_pos, if_true]
    cases hf : s.st.flushTimer with
    | none => rfl
    | some d => rw [hf] at h; simp at h; exact absurd h (by omega)
  · simp only [hz, if_neg, if_false]
    rw [flushLogs_flushTimer]

/-- Claim C8 (at most one flush timer): in every state reachable by any
sequence of `log` calls, schedules, flushes and timer firings, at most
one timer is armed; `scheduleFlush` is a no-op whenever a handle is
pending and arms exactly one new 1-second timer otherwise; a firing
timer clears the handle, after which a shipping `log` call schedules a
fresh timer. -/
theorem at_most_one_flush_timer (jsDate : String → Option Int) (env : String)
    (events : List LoggerEvent) :
    (runEvents jsDate env events).armedTimers ≤ 1
    ∧ (∀ s : TimerSystem, s.st.flushTimer.isSome = true → scheduleFlush s = s)
    ∧ ((runEvents jsDate env events).st.flushTimer = none →
        (scheduleFlush (runEvents jsDate env events)).armedTimers
            = (runEvents jsDate env events).armedTimers + 1
        ∧ (scheduleFlush (runEvents jsDate env events)).st.flushTimer
            = some 1000)
    ∧ (∀ outcome, (stepEvent jsDate env (runEvents jsDate env events)
          (LoggerEvent.timerFire outcome)).st.flushTimer = none)
    ∧ (∀ outcome (e : LokiLogEntry), (stepEvent jsDate env
          (stepEvent jsDate env (runEvents jsDate env events)
            (LoggerEvent.timerFire outcome))
          (LoggerEvent.logCall e true)).st.flushTimer = some 1000) := by
  have hinv := runEvents_invariant jsDate env events
  refine ⟨?_, ?_, ?_, ?_, ?_⟩
  · rw [hinv]
    split <;> omega
  · intro s hs
    cases hf : s.st.flushTimer with
    | none => rw [hf] at hs; simp at hs
    | some d => simp [scheduleFlush, hf]
  · intro hn
    constructor <;> simp [scheduleFlush, hn]
  · intro outcome
    exact timerFire_clears_handle jsDate env _ hinv outcome
  · intro outcome e
    have hcleared := timerFire_clears_handle jsDate env _ hinv outcome
    simp only [stepEvent] at hcleared ⊢
    simp [logCallStep, scheduleFlush, hcleared]

/-- Witness for C8: a concrete three-call burst arms exactly one timer. -/
theorem at_most_one_flush_timer_witness :
    (runEvents (fun _ => some 0) "production"
      [LoggerEvent.logCall ⟨"INFO", "a", "t", []⟩ true,
       LoggerEvent.logCall ⟨"INFO", "b", "t", []⟩ true,
       LoggerEvent.logCall ⟨"INFO", "c", "t", []⟩ true]).armedTimers ≤ 1
    ∧ scheduleFlush ⟨⟨[], some 1000⟩, 1⟩ = ⟨⟨[], some 1000⟩, 1⟩ := by
  have h := at_most_one_flush_timer (fun _ => some 0) "production"
    [LoggerEvent.logCall ⟨"INFO", "a", "t", []⟩ true,
     LoggerEvent.logCall ⟨"INFO", "b", "t", []⟩ true,
     LoggerEvent.logCall ⟨"INFO", "c", "t", []⟩ true]
  exact ⟨h.1, h.2.1 ⟨⟨[], some 1000⟩, 1⟩ rfl⟩

/-- Claim C9 (outbound payload shape and order): a non-empty buffer is
flushed as exactly one request holding exactly one labeled stream whose
`values` array is the buffer mapped in enqueue order; the value list has
one entry per buffered line, and the `i`-th value is the pair of the
`i`-th entry's millisecond timestamp times 1000000 rendered as a decimal
string and the JSON payload embedding its level, message and labels. -/
theorem outbound_payload_shape (jsDate : String → Option Int) (env : String)
    (s : LoggerState) (outcome : TransportOutcome)
    (h : s.logBuffer ≠ [])
    (hv : ∀ e ∈ s.logBuffer, (jsDate e.timestamp).isSome = true) :
    (flushLogs jsDate env s outcome).requests
        = [Json.obj [("streams", Json.arr
            [Json.obj [("stream", streamLabels env),
              ("values", Json.arr (s.logBuffer.map (lokiValue jsDate)))]])]]
    ∧ (s.logBuffer.map (lokiValue jsDate)).length = s.logBuffer.length
    ∧ ∀ i, i < s.logBuffer.length →
        ∃ e t, s.logBuffer[i]? = some e ∧ jsDate e.timestamp = some t
          ∧ (s.logBuffer.map (lokiValue jsDate))[i]?
              = some (Json.arr [Json.str (toString (t * 1000000)), payloadJson e]) := by
  have hne : s.logBuffer.isEmpty = false := by
    simpa [List.isEmpty_iff] using h
  refine ⟨?_, List.length_map _ _, ?_⟩
  · cases outcome <;> simp [flushLogs, hne, lokiBody]
  · intro i hi
    obtain ⟨t, ht⟩ := Option.isSome_iff_exists.mp
      (hv (s.logBuffer[i]) (List.getElem_mem hi))
    refine ⟨s.logBuffer[i], t, List.getElem?_eq_getElem hi, ht, ?_⟩
    rw [List.getElem?_map, List.getElem?_eq_getElem hi]
    simp [lokiValue, nanoTimestamp, ht]

/-- Witness for C9: a concrete two-line buffer with valid timestamps. -/
theorem outbound_payload_shape_witness :
    (([⟨"INFO", "a", "t", []⟩, ⟨"WARN", "b", "t", []⟩] : List LokiLogEntry) ≠ [])
    ∧ (([⟨"INFO", "a", "t", []⟩, ⟨"WARN", "b", "t", []⟩] :
          List LokiLogEntry).map (lokiValue (fun _ => some 2))).length
      = ([⟨"INFO", "a", "t", []⟩, ⟨"WARN", "b", "t", []⟩] :
          List LokiLogEntry).length := by
  have h := outbound_payload_shape (fun _ => some 2) "production"
    ⟨[⟨"INFO", "a", "t", []⟩, ⟨"WARN", "b", "t", []⟩], none⟩
    TransportOutcome.success (by simp) (fun e _ => rfl)
  exact ⟨by simp, h.2.1⟩
